import Mathlib

/-!
Verification of the dedicated shooter server (`server/dedicated_server.py`).

The server keeps two registries: `players` (sessions, a dict keyed by
player id) and `bullets` (projectiles, a dict keyed by bullet id).  A
fixed-rate world tick advances every projectile, resolves collisions
against the sessions, applies damage/respawn, removes expired and
colliding projectiles and broadcasts a world-state snapshot.  A
per-connection handler processes `join` / `state` / `shoot` messages,
and a UDP discovery loop answers `DISCOVER` probes.

The embedding below models Python dicts as association lists in
insertion order (dict iteration order), machine floats as rationals, and
wall-clock time as a rational parameter `now` that is constant within a
tick.  Network writers are modelled by a boolean `alive` flag on each
session: writing to a dead writer raises a connection-reset error.

Two sends occur in the core.  The broadcast loop (lines 184-189) guards
its send with `except ConnectionResetError: continue`.  The damage send
inside `_update_bullets` (line 157) is NOT guarded: if the hit session's
writer is dead, the `await` raises after the health decrement (line 155)
but before the respawn reset (158-160) and the removal mark (161), and
the exception aborts the rest of the loop, the pops (163-164) and the
tick's broadcast.  `updateLoop`/`updateBullets` therefore return an
`Except` whose error payload is the registry state observable at the
raise.
-/

/-! ### Configuration constants (`shooter/config.py`) -/

def PLAYER_RADIUS : ℚ := 8 / 10

def BULLET_SPEED : ℚ := 18

def BULLET_LIFETIME : ℚ := 3

def BULLET_DAMAGE : Int := 25

def RESPAWN_HEIGHT : ℚ := 3

/-! ### Data model -/

/-- A 3-component vector, as the Python lists of three floats. -/
structure Vec3 where
  x : ℚ
  y : ℚ
  z : ℚ
deriving DecidableEq

/-- `_distance_sq` from `dedicated_server.py`: sum of coordinatewise
squared differences. -/
def distance_sq (a b : Vec3) : ℚ :=
  (a.x - b.x) ^ 2 + (a.y - b.y) ^ 2 + (a.z - b.z) ^ 2

/-- The fixed respawn point `[0.0, RESPAWN_HEIGHT, 0.0]`. -/
def respawnPos : Vec3 := ⟨0, RESPAWN_HEIGHT, 0⟩

/-- `PlayerState` dataclass.  The `reader`/`writer` pair is modelled by
the single flag `alive`: writes to a dead writer raise a
connection-reset error. -/
structure PlayerState where
  name : String
  position : Vec3
  rotation_y : ℚ
  health : Int
  last_update : ℚ
  alive : Bool
deriving DecidableEq

/-- `Bullet` dataclass. -/
structure Bullet where
  id : String
  owner_id : String
  position : Vec3
  direction : Vec3
  created_at : ℚ
deriving DecidableEq

/-- The mutable fields of `ShooterServer`: both registries plus the
configuration the claims mention. -/
structure ServerState where
  name : String
  port : Nat
  max_players : Nat
  players : List (String × PlayerState)
  bullets : List (String × Bullet)
deriving DecidableEq

/-! ### Association lists as Python dicts -/

/-- Lookup in a dict modelled as an association list. -/
def assocGet {α : Type} (k : String) : List (String × α) → Option α
  | [] => none
  | (k', v) :: rest => if k' = k then some v else assocGet k rest

/-- `d[k] = v` on a Python dict: replace in place if the key exists,
otherwise append (insertion order). -/
def dictInsert {α : Type} (k : String) (v : α) : List (String × α) → List (String × α)
  | [] => [(k, v)]
  | (k', v') :: rest =>
    if k' = k then (k, v) :: rest else (k', v') :: dictInsert k v rest

/-- `d.pop(k, None)` for every `k` in `rem`, applied to `d`. -/
def removeKeys {α : Type} (rem : List String) (d : List (String × α)) : List (String × α) :=
  d.filter (fun e => ¬ e.1 ∈ rem)

/-! ### Sending on a session's stream -/

/-- The failure both send sites can raise: the peer reset the
connection.  The broadcast loop catches it; the damage send does not. -/
inductive SendError where
  | connectionReset
deriving DecidableEq

/-- Writing to a session's stream (`write` + `drain`): succeeds on a
live writer, raises a connection reset on a dead one. -/
def trySend (p : PlayerState) : Except SendError Unit :=
  if p.alive then Except.ok () else Except.error SendError.connectionReset

/-! ### World tick (`_update_bullets`) -/

/-- Lines 145-147: integrate one bullet's position by
`direction * BULLET_SPEED * dt`. -/
def advanceBullet (dt : ℚ) (b : Bullet) : Bullet :=
  { b with position :=
      ⟨b.position.x + b.direction.x * BULLET_SPEED * dt,
       b.position.y + b.direction.y * BULLET_SPEED * dt,
       b.position.z + b.direction.z * BULLET_SPEED * dt⟩ }

/-- Line 155: `player.health -= BULLET_DAMAGE`. -/
def damagePlayer (p : PlayerState) : PlayerState :=
  { p with health := p.health - BULLET_DAMAGE }

/-- Lines 158-160: if the (already decremented) health is `≤ 0`, reset
position to the respawn point and health to `100`. -/
def respawnIfDead (p : PlayerState) : PlayerState :=
  if p.health ≤ 0 then { p with position := respawnPos, health := 100 } else p

/-- Lines 155-160 combined: the net effect of a hit on a player when
the damage send in between succeeds.  Equals
`respawnIfDead (damagePlayer p)`. -/
def hitPlayer (p : PlayerState) : PlayerState :=
  let h := p.health - BULLET_DAMAGE
  if h ≤ 0 then { p with position := respawnPos, health := 100 }
  else { p with health := h }

/-- Lines 151-154: scan the sessions in registry order and return the
id of the first non-owner session within `PLAYER_RADIUS` of `pos`, if
any. -/
def firstHit (owner : String) (pos : Vec3) : List (String × PlayerState) → Option String
  | [] => none
  | (pid, p) :: rest =>
    if pid = owner then firstHit owner pos rest
    else if distance_sq pos p.position ≤ PLAYER_RADIUS ^ 2 then some pid
    else firstHit owner pos rest

/-- Lines 151-162, the inner loop over `self.players.items()` for one
bullet: skip the owner; on the first non-owner session within radius,
decrement its health in place (line 155), send the damage message
(line 157, unguarded), then — only if the send succeeded — apply the
respawn reset (158-160) and `break` with the hit marked.  Returns the
players list after the scan together with `none` (no hit),
`some (pid, true)` (hit on `pid`, message delivered, reset applied) or
`some (pid, false)` (hit on `pid`, the send raised: the decrement
persists, the reset did not run). -/
def collideScan (owner : String) (pos : Vec3) :
    List (String × PlayerState) → List (String × PlayerState) × Option (String × Bool)
  | [] => ([], none)
  | (pid, p) :: rest =>
    if pid = owner then
      let r := collideScan owner pos rest
      ((pid, p) :: r.1, r.2)
    else if distance_sq pos p.position ≤ PLAYER_RADIUS ^ 2 then
      match trySend p with
      | Except.ok _ => ((pid, respawnIfDead (damagePlayer p)) :: rest, some (pid, true))
      | Except.error _ => ((pid, damagePlayer p) :: rest, some (pid, false))
    else
      let r := collideScan owner pos rest
      ((pid, p) :: r.1, r.2)

/-- Apply `hitPlayer` to the registry entry keyed `pid`. -/
def applyHitTo (pid : String) (players : List (String × PlayerState)) :
    List (String × PlayerState) :=
  players.map (fun e => if e.1 = pid then (e.1, hitPlayer e.2) else e)

/-- Result of a completed bullet loop of `_update_bullets`. -/
structure LoopOut where
  bullets : List (String × Bullet)
  players : List (String × PlayerState)
  removed : List String
  outputs : List (String × Int)
deriving DecidableEq

/-- State observable when the damage send at line 157 raises: the
projectile store (positions advanced for the bullets processed so far,
nothing popped), the sessions (the failing hit's decrement applied, its
reset skipped), and the damage messages delivered before the raise. -/
structure TickAbort where
  bullets : List (String × Bullet)
  players : List (String × PlayerState)
  outputs : List (String × Int)
deriving DecidableEq

/-- Lines 144-162, the loop over `list(self.bullets.items())`.  Each
bullet is advanced in place; an expired bullet (age strictly greater
than `BULLET_LIFETIME`) is marked for removal and skips hit testing
(`continue`); otherwise the bullet is hit-tested with `collideScan`.
A hit whose damage send succeeds marks the bullet for removal; a hit
whose damage send raises aborts the whole loop with the state at the
raise.  `outputs` collects the delivered damage messages as
(recipient id, amount) in send order. -/
def updateLoop (now dt : ℚ) (players : List (String × PlayerState)) :
    List (String × Bullet) → Except TickAbort LoopOut
  | [] => Except.ok ⟨[], players, [], []⟩
  | (bid, b) :: rest =>
    let b' := advanceBullet dt b
    if now - b.created_at > BULLET_LIFETIME then
      match updateLoop now dt players rest with
      | Except.ok r =>
        Except.ok ⟨(bid, b') :: r.bullets, r.players, bid :: r.removed, r.outputs⟩
      | Except.error a => Except.error { a with bullets := (bid, b') :: a.bullets }
    else
      match collideScan b.owner_id b'.position players with
      | (_, none) =>
        match updateLoop now dt players rest with
        | Except.ok r =>
          Except.ok ⟨(bid, b') :: r.bullets, r.players, r.removed, r.outputs⟩
        | Except.error a => Except.error { a with bullets := (bid, b') :: a.bullets }
      | (players', some (pid, true)) =>
        match updateLoop now dt players' rest with
        | Except.ok r =>
          Except.ok ⟨(bid, b') :: r.bullets, r.players, bid :: r.removed,
            (pid, BULLET_DAMAGE) :: r.outputs⟩
        | Except.error a =>
          Except.error ⟨(bid, b') :: a.bullets, a.players,
            (pid, BULLET_DAMAGE) :: a.outputs⟩
      | (players', some (_, false)) =>
        Except.error ⟨(bid, b') :: rest, players', []⟩

/-- Players component of a finished-or-aborted bullet loop. -/
def loopPlayers : Except TickAbort LoopOut → List (String × PlayerState)
  | Except.ok r => r.players
  | Except.error a => a.players

/-- Delivered damage messages of a finished-or-aborted bullet loop. -/
def loopOutputs : Except TickAbort LoopOut → List (String × Int)
  | Except.ok r => r.outputs
  | Except.error a => a.outputs

/-- `_update_bullets(dt)`: run the bullet loop; if it completes, pop
every marked bullet from the store (lines 163-164) and return the new
server state with the delivered damage messages; if the damage send
raised, the pops never run and the exception propagates with the state
at the raise. -/
def updateBullets (now dt : ℚ) (st : ServerState) :
    Except (ServerState × List (String × Int)) (ServerState × List (String × Int)) :=
  match updateLoop now dt st.players st.bullets with
  | Except.ok r =>
    Except.ok ({ st with players := r.players, bullets := removeKeys r.removed r.bullets },
      r.outputs)
  | Except.error a =>
    Except.error ({ st with players := a.players, bullets := a.bullets }, a.outputs)

/-- The registry state and delivered messages after `_update_bullets`,
whether it completed or raised. -/
def tickResult
    (x : Except (ServerState × List (String × Int)) (ServerState × List (String × Int))) :
    ServerState × List (String × Int) :=
  match x with
  | Except.ok r => r
  | Except.error r => r

/-! ### Broadcast (`_broadcast_state`) -/

/-- One player entry of the `world_state` payload. -/
structure PlayerView where
  id : String
  name : String
  position : Vec3
  rotation_y : ℚ
  health : Int
deriving DecidableEq

/-- The `world_state` payload: every session's id/name/position/yaw/health
and every live projectile's id/position. -/
structure Snapshot where
  players : List PlayerView
  projectiles : List (String × Vec3)
deriving DecidableEq

/-- Lines 167-182: build the snapshot from the current registries. -/
def buildSnapshot (st : ServerState) : Snapshot :=
  ⟨st.players.map (fun e => ⟨e.1, e.2.name, e.2.position, e.2.rotation_y, e.2.health⟩),
   st.bullets.map (fun e => (e.2.id, e.2.position))⟩

/-- Lines 184-189: write the serialized snapshot to every session in
registry order; a connection reset on one recipient is caught and the
loop continues with the next.  Returns the ids that received the
snapshot, in send order.  The function is total: no error escapes this
loop. -/
def broadcastRecipients (st : ServerState) : List String :=
  st.players.foldl
    (fun acc e =>
      match trySend e.2 with
      | Except.ok _ => acc ++ [e.1]
      | Except.error SendError.connectionReset => acc)
    []

/-- Result of one completed iteration of `_world_tick`: the post-tick
state, the damage messages, the snapshot built afterwards, and its
recipients. -/
structure TickOut where
  post : ServerState
  damage_msgs : List (String × Int)
  snapshot : Snapshot
  recipients : List String
deriving DecidableEq

/-- One iteration of `_world_tick` (lines 135-140): update bullets,
then build and broadcast the snapshot of the updated state.  If
`_update_bullets` raised, no snapshot is built or broadcast and the
exception propagates out of the tick. -/
def worldTick (now dt : ℚ) (st : ServerState) :
    Except (ServerState × List (String × Int)) TickOut :=
  match updateBullets now dt st with
  | Except.ok (st', outs) =>
    Except.ok ⟨st', outs, buildSnapshot st', broadcastRecipients st'⟩
  | Except.error e => Except.error e

/-! ### Connection handler (`_handle_client`) -/

/-- A decoded client message.  `Option` fields model `message.get` on
keys that may be absent; a message with an unknown type or that failed
to decode is `malformed`. -/
inductive ClientMsg where
  | join (name : Option String)
  | state (position : Option Vec3) (rotation_y : Option ℚ) (health : Option Int)
  | shoot (origin : Option Vec3) (direction : Option Vec3)
  | malformed
deriving DecidableEq

/-- A reply the handler writes on its own connection. -/
inductive HandlerOut where
  | welcome (player_id : String)
  | errorFull
deriving DecidableEq

/-- Result of processing one line in `_handle_client`: the new server
state, the handler's tracked `player_id`, the replies written on this
connection, and whether the read loop continues (`false` after the
server-full `break`). -/
structure HandlerStep where
  server : ServerState
  pid : Option String
  outputs : List HandlerOut
  continues : Bool
deriving DecidableEq

/-- Lines 85-123: dispatch one decoded message.  `fresh` stands for the
`uuid4().hex` drawn for this message (used by `join` and `shoot`);
`now` for `time.time()`. -/
def handleMsg (now : ℚ) (fresh : String) (msg : ClientMsg) (st : ServerState)
    (pid : Option String) : HandlerStep :=
  match msg with
  | ClientMsg.join nm =>
    if st.players.length ≥ st.max_players then
      ⟨st, pid, [HandlerOut.errorFull], false⟩
    else
      let p : PlayerState :=
        ⟨nm.getD "Player", respawnPos, 0, 100, now, true⟩
      ⟨{ st with players := dictInsert fresh p st.players },
        some fresh, [HandlerOut.welcome fresh], true⟩
  | ClientMsg.state pos rot h =>
    match pid with
    | none => ⟨st, pid, [], true⟩
    | some i =>
      match assocGet i st.players with
      | none => ⟨st, pid, [], true⟩
      | some p =>
        let p' : PlayerState :=
          { p with position := pos.getD p.position,
                   rotation_y := rot.getD p.rotation_y,
                   health := h.getD p.health,
                   last_update := now }
        ⟨{ st with players := dictInsert i p' st.players }, pid, [], true⟩
  | ClientMsg.shoot o d =>
    match pid, o, d with
    | some i, some origin, some dir =>
      ⟨{ st with bullets := dictInsert fresh ⟨fresh, i, origin, dir, now⟩ st.bullets },
        pid, [], true⟩
    | _, _, _ => ⟨st, pid, [], true⟩
  | ClientMsg.malformed => ⟨st, pid, [], true⟩

/-- Lines 126-131: on connection close, delete the handler's tracked
session (if any) from the registry. -/
def closeConn (st : ServerState) (pid : Option String) : ServerState :=
  match pid with
  | some i => { st with players := st.players.filter (fun e => e.1 ≠ i) }
  | none => st

/-! ### Discovery (`_discovery_loop`) -/

/-- The ASCII whitespace class of Python `bytes.strip()`: space, tab,
newline, carriage return, vertical tab and form feed. -/
def isPySpace (c : Char) : Bool :=
  c == ' ' || c == '\t' || c == '\n' || c == '\r' || c == '\x0b' || c == '\x0c'

/-- Python `bytes.strip()` with no argument: drop leading and trailing
ASCII whitespace. -/
def pyStrip (s : String) : String :=
  ⟨((s.data.dropWhile isPySpace).reverse.dropWhile isPySpace).reverse⟩

/-- Lines 202-206: one received datagram.  The reply is sent exactly
when the datagram, stripped of surrounding whitespace
(`data.strip() == b"DISCOVER"`), equals `DISCOVER`; it carries the
server name, game port, current session count and configured
capacity. -/
def handleDatagram (st : ServerState) (data : String) : Option String :=
  if pyStrip data = "DISCOVER" then
    some ("SERVER " ++ st.name ++ " " ++ toString st.port ++ " "
      ++ toString st.players.length ++ " " ++ toString st.max_players ++ "\n")
  else
    none

/-! ### Helper lemmas on the dict model -/

theorem assocGet_dictInsert_self {α : Type} (k : String) (v : α) (l : List (String × α)) :
    assocGet k (dictInsert k v l) = some v := by
  induction l with
  | nil => simp [dictInsert, assocGet]
  | cons e rest ih =>
    by_cases h : e.1 = k
    · simp [dictInsert, h, assocGet]
    · simp [dictInsert, h, assocGet, ih]

theorem dictInsert_fresh {α : Type} (k : String) (v : α) (l : List (String × α))
    (h : assocGet k l = none) : dictInsert k v l = l ++ [(k, v)] := by
  induction l with
  | nil => simp [dictInsert]
  | cons e rest ih =>
    by_cases hk : e.1 = k
    · simp [assocGet, hk] at h
    · simp [assocGet, hk] at h
      simp [dictInsert, hk, ih h]

theorem assocGet_append_of_none {α : Type} (k : String) (l1 l2 : List (String × α))
    (h : assocGet k l1 = none) : assocGet k (l1 ++ l2) = assocGet k l2 := by
  induction l1 with
  | nil => simp
  | cons e rest ih =>
    by_cases hk : e.1 = k
    · simp [assocGet, hk] at h
    · simp [assocGet, hk] at h ⊢
      exact ih h

theorem assocGet_filter_self {α : Type} (k : String) (l : List (String × α)) :
    assocGet k (l.filter (fun e => e.1 ≠ k)) = none := by
  induction l with
  | nil => simp [assocGet]
  | cons e rest ih =>
    simp only [ne_eq, decide_not] at ih
    by_cases hk : e.1 = k
    · simp [List.filter, hk, ih]
    · simp [List.filter, hk, assocGet, ih]

theorem assocGet_filter_ne {α : Type} (k j : String) (l : List (String × α))
    (h : k ≠ j) : assocGet k (l.filter (fun e => e.1 ≠ j)) = assocGet k l := by
  induction l with
  | nil => simp
  | cons e rest ih =>
    simp only [ne_eq, decide_not] at ih
    by_cases hj : e.1 = j
    · have hek : e.1 ≠ k := by rw [hj]; exact fun hc => h hc.symm
      simp [List.filter, hj, assocGet, hek, ih, Ne.symm h]
    · simp [List.filter, hj, assocGet, ih]

theorem assocGet_mem_keys {α : Type} (k : String) (v : α) (l : List (String × α))
    (h : assocGet k l = some v) : k ∈ l.map Prod.fst := by
  induction l with
  | nil => simp [assocGet] at h
  | cons e rest ih =>
    by_cases hk : e.1 = k
    · simp [hk]
    · simp [assocGet, hk] at h
      simp [ih h]

theorem snapshot_ids (s : ServerState) :
    (buildSnapshot s).players.map PlayerView.id = s.players.map Prod.fst := by
  simp [buildSnapshot, List.map_map]

/-- C5: a join request fails with the capacity error iff the registry
size is at least the configured maximum; on failure the state is
unchanged (no session created) and the connection loop breaks; on
success (with a fresh identifier) the new session is appended at the
respawn point with health 100, the identifier is returned in the
welcome message, and the registry stays within capacity. -/
theorem C5_join_capacity (now : ℚ) (fresh : String) (nm : Option String)
    (st : ServerState) (pid : Option String) :
    (st.players.length ≥ st.max_players →
      (handleMsg now fresh (ClientMsg.join nm) st pid).server = st ∧
      (handleMsg now fresh (ClientMsg.join nm) st pid).outputs = [HandlerOut.errorFull] ∧
      (handleMsg now fresh (ClientMsg.join nm) st pid).continues = false) ∧
    (st.players.length < st.max_players → assocGet fresh st.players = none →
      (handleMsg now fresh (ClientMsg.join nm) st pid).server.players
          = st.players ++ [(fresh, ⟨nm.getD "Player", respawnPos, 0, 100, now, true⟩)] ∧
      (handleMsg now fresh (ClientMsg.join nm) st pid).outputs = [HandlerOut.welcome fresh] ∧
      (handleMsg now fresh (ClientMsg.join nm) st pid).pid = some fresh ∧
      (handleMsg now fresh (ClientMsg.join nm) st pid).server.players.length ≤ st.max_players) := by
  constructor
  · intro h
    simp [handleMsg, h]
  · intro h hf
    have hng : ¬ st.players.length ≥ st.max_players := not_le.mpr h
    refine ⟨?_, ?_, ?_, ?_⟩
    · simp only [handleMsg, if_neg hng]
      exact dictInsert_fresh fresh _ _ hf
    · simp [handleMsg, hng]
    · simp [handleMsg, hng]
    · simp only [handleMsg, if_neg hng]
      rw [dictInsert_fresh fresh _ _ hf]
      simp
      omega

/-- C5 witness: on a one-slot server an incoming join with a fresh id
succeeds and appends the session. -/
theorem C5_join_capacity_witness :
    (handleMsg 0 "a" (ClientMsg.join none)
        (⟨"S", 50000, 1, [], []⟩ : ServerState) none).server.players
      = [("a", ⟨"Player", respawnPos, 0, 100, 0, true⟩)] := by
  have h := (C5_join_capacity 0 "a" none (⟨"S", 50000, 1, [], []⟩ : ServerState) none).2
    (by decide) (by decide)
  simpa using h.1

/-- C10: a second join from a connection that already holds a session
creates a second session and replaces the handler's tracked identifier;
on close only the most recent session is removed, and the earlier one
stays in the registry and in the snapshot. -/
theorem C10_second_join_leaks_session (now1 now2 : ℚ) (fresh1 fresh2 : String)
    (nm1 nm2 : Option String) (st : ServerState)
    (hcap : st.players.length + 1 < st.max_players)
    (hf1 : assocGet fresh1 st.players = none)
    (hf2 : assocGet fresh2 st.players = none)
    (hne : fresh1 ≠ fresh2) :
    let s1 := handleMsg now1 fresh1 (ClientMsg.join nm1) st none
    let s2 := handleMsg now2 fresh2 (ClientMsg.join nm2) s1.server s1.pid
    let final := closeConn s2.server s2.pid
    s2.pid = some fresh2 ∧
    assocGet fresh1 final.players
      = some ⟨nm1.getD "Player", respawnPos, 0, 100, now1, true⟩ ∧
    assocGet fresh2 final.players = none ∧
    fresh1 ∈ (buildSnapshot final).players.map PlayerView.id := by
  intro s1 s2 final
  have hng1 : ¬ st.players.length ≥ st.max_players := by omega
  have hs1 : s1 = ⟨{ st with players := st.players
        ++ [(fresh1, ⟨nm1.getD "Player", respawnPos, 0, 100, now1, true⟩)] },
      some fresh1, [HandlerOut.welcome fresh1], true⟩ := by
    show handleMsg now1 fresh1 (ClientMsg.join nm1) st none = _
    simp only [handleMsg, if_neg hng1]
    rw [dictInsert_fresh fresh1 _ _ hf1]
  have hlen1 : s1.server.players.length = st.players.length + 1 := by
    rw [hs1]; simp
  have hng2 : ¬ s1.server.players.length ≥ s1.server.max_players := by
    rw [hlen1, hs1]; simpa using by omega
  have hf2' : assocGet fresh2 s1.server.players = none := by
    rw [hs1]
    show assocGet fresh2 (st.players ++ _) = none
    rw [assocGet_append_of_none fresh2 _ _ hf2]
    simp [assocGet, hne]
  have hs2 : s2 = ⟨{ st with players := (st.players
        ++ [(fresh1, ⟨nm1.getD "Player", respawnPos, 0, 100, now1, true⟩)])
        ++ [(fresh2, ⟨nm2.getD "Player", respawnPos, 0, 100, now2, true⟩)] },
      some fresh2, [HandlerOut.welcome fresh2], true⟩ := by
    show handleMsg now2 fresh2 (ClientMsg.join nm2) s1.server s1.pid = _
    simp only [handleMsg, if_neg hng2]
    rw [dictInsert_fresh fresh2 _ _ hf2']
    rw [hs1]
  have hfin : final.players = ((st.players
        ++ [(fresh1, (⟨nm1.getD "Player", respawnPos, 0, 100, now1, true⟩ : PlayerState))])
        ++ [(fresh2, (⟨nm2.getD "Player", respawnPos, 0, 100, now2, true⟩ : PlayerState))]).filter
        (fun e => e.1 ≠ fresh2) := by
    show (closeConn s2.server s2.pid).players = _
    rw [hs2]
    simp [closeConn]
  have hget1 : assocGet fresh1 final.players
      = some ⟨nm1.getD "Player", respawnPos, 0, 100, now1, true⟩ := by
    rw [hfin, assocGet_filter_ne fresh1 fresh2 _ hne, List.append_assoc,
      assocGet_append_of_none fresh1 _ _ hf1]
    simp [assocGet]
  refine ⟨by rw [hs2], hget1, ?_, ?_⟩
  · rw [hfin]
    exact assocGet_filter_self fresh2 _
  · rw [snapshot_ids]
    exact assocGet_mem_keys fresh1 _ _ hget1

/-- C10 witness: on an empty three-slot server, joining twice on one
connection and closing it leaves the first session in the registry and
removes only the second. -/
theorem C10_second_join_leaks_session_witness :
    let st : ServerState := ⟨"S", 50000, 3, [], []⟩
    let s1 := handleMsg 0 "a" (ClientMsg.join none) st none
    let s2 := handleMsg 0 "b" (ClientMsg.join none) s1.server s1.pid
    let final := closeConn s2.server s2.pid
    s2.pid = some "b" ∧
    assocGet "a" final.players = some ⟨"Player", respawnPos, 0, 100, 0, true⟩ ∧
    assocGet "b" final.players = none ∧
    "a" ∈ (buildSnapshot final).players.map PlayerView.id :=
  C10_second_join_leaks_session 0 0 "a" "b" none none ⟨"S", 50000, 3, [], []⟩
    (by decide) (by decide) (by decide) (by decide)

/-! ### Helper lemmas on the world tick -/

theorem hitPlayer_decomp (p : PlayerState) :
    hitPlayer p = respawnIfDead (damagePlayer p) := rfl

theorem hitPlayer_health_pos (p : PlayerState) : 0 < (hitPlayer p).health := by
  unfold hitPlayer
  by_cases h : p.health - BULLET_DAMAGE ≤ 0
  · simp [h]
  · simp only [h, if_false]
    omega

theorem hitPlayer_alive (p : PlayerState) : (hitPlayer p).alive = p.alive := by
  unfold hitPlayer
  by_cases h : p.health - BULLET_DAMAGE ≤ 0
  · simp [h]
  · simp [h]

theorem firstHit_ne_owner (owner : String) (pos : Vec3)
    (l : List (String × PlayerState)) (q : String)
    (h : firstHit owner pos l = some q) : q ≠ owner := by
  induction l with
  | nil => simp [firstHit] at h
  | cons e rest ih =>
    by_cases ho : e.1 = owner
    · exact ih (by simpa [firstHit, ho] using h)
    · by_cases hd : distance_sq pos e.2.position ≤ PLAYER_RADIUS ^ 2
      · simp [firstHit, ho, hd] at h
        rw [← h]; exact ho
      · exact ih (by simpa [firstHit, ho, hd] using h)

theorem firstHit_mem_keys (owner : String) (pos : Vec3)
    (l : List (String × PlayerState)) (q : String)
    (h : firstHit owner pos l = some q) : q ∈ l.map Prod.fst := by
  induction l with
  | nil => simp [firstHit] at h
  | cons e rest ih =>
    by_cases ho : e.1 = owner
    · have := ih (by simpa [firstHit, ho] using h)
      simp [this]
    · by_cases hd : distance_sq pos e.2.position ≤ PLAYER_RADIUS ^ 2
      · simp [firstHit, ho, hd] at h
        simp [h]
      · have := ih (by simpa [firstHit, ho, hd] using h)
        simp [this]

theorem applyHitTo_cons (pid : String) (e : String × PlayerState)
    (rest : List (String × PlayerState)) :
    applyHitTo pid (e :: rest)
      = (if e.1 = pid then (e.1, hitPlayer e.2) else e) :: applyHitTo pid rest := rfl

theorem applyHitTo_not_mem (pid : String) (l : List (String × PlayerState))
    (h : ¬ pid ∈ l.map Prod.fst) : applyHitTo pid l = l := by
  induction l with
  | nil => rfl
  | cons e rest ih =>
    simp only [List.map_cons, List.mem_cons] at h
    push_neg at h
    rw [applyHitTo_cons, if_neg (fun hc => h.1 hc.symm), ih h.2]

theorem assocGet_applyHitTo_self (pid : String) (l : List (String × PlayerState)) :
    assocGet pid (applyHitTo pid l) = (assocGet pid l).map hitPlayer := by
  induction l with
  | nil => simp [applyHitTo, assocGet]
  | cons e rest ih =>
    rw [applyHitTo_cons]
    by_cases hk : e.1 = pid
    · rw [if_pos hk]
      simp only [assocGet]
      rw [if_pos hk, if_pos hk]
      simp
    · rw [if_neg hk]
      simp only [assocGet]
      rw [if_neg hk, if_neg hk]
      exact ih

theorem assocGet_applyHitTo_ne (pid q : String) (l : List (String × PlayerState))
    (h : q ≠ pid) : assocGet q (applyHitTo pid l) = assocGet q l := by
  induction l with
  | nil => simp [applyHitTo, assocGet]
  | cons e rest ih =>
    rw [applyHitTo_cons]
    by_cases hk : e.1 = pid
    · have hne : e.1 ≠ q := by rw [hk]; exact fun hc => h hc.symm
      rw [if_pos hk]
      simp only [assocGet]
      rw [if_neg hne, if_neg hne]
      exact ih
    · rw [if_neg hk]
      simp only [assocGet]
      by_cases hq : e.1 = q
      · rw [if_pos hq, if_pos hq]
      · rw [if_neg hq, if_neg hq]
        exact ih

theorem collideScan_fst_firstHit (owner : String) (pos : Vec3)
    (l : List (String × PlayerState)) :
    ((collideScan owner pos l).2).map Prod.fst = firstHit owner pos l := by
  induction l with
  | nil => simp [collideScan, firstHit]
  | cons e rest ih =>
    obtain ⟨pid, p⟩ := e
    by_cases ho : pid = owner
    · simp only [collideScan, firstHit, ho, if_true]
      exact ih
    · by_cases hd : distance_sq pos p.position ≤ PLAYER_RADIUS ^ 2
      · simp only [collideScan, firstHit, ho, if_false, hd, if_true]
        cases hs : trySend p with
        | ok u => simp
        | error err => simp
      · simp only [collideScan, firstHit, ho, if_false, hd]
        exact ih

theorem collideScan_snd_ne_owner (owner : String) (pos : Vec3)
    (l : List (String × PlayerState)) (q : String) (d : Bool)
    (h : (collideScan owner pos l).2 = some (q, d)) : q ≠ owner := by
  have hf : firstHit owner pos l = some q := by
    rw [← collideScan_fst_firstHit, h]
    rfl
  exact firstHit_ne_owner owner pos l q hf

theorem assocGet_collideScan_owner (owner : String) (pos : Vec3)
    (l : List (String × PlayerState)) :
    assocGet owner (collideScan owner pos l).1 = assocGet owner l := by
  induction l with
  | nil => simp [collideScan]
  | cons e rest ih =>
    obtain ⟨pid, p⟩ := e
    by_cases ho : pid = owner
    · simp only [collideScan, ho, if_true]
      simp [assocGet]
    · by_cases hd : distance_sq pos p.position ≤ PLAYER_RADIUS ^ 2
      · simp only [collideScan, ho, if_false, hd, if_true]
        cases hs : trySend p with
        | ok u => simp [assocGet, ho]
        | error err => simp [assocGet, ho]
      · simp only [collideScan, ho, if_false, hd]
        simp only [assocGet, ho, if_false]
        exact ih

theorem collideScan_hit_of_alive (owner : String) (pos : Vec3) :
    ∀ (l : List (String × PlayerState)) (pid : String) (p : PlayerState),
      (l.map Prod.fst).Nodup →
      firstHit owner pos l = some pid →
      assocGet pid l = some p →
      p.alive = true →
      collideScan owner pos l = (applyHitTo pid l, some (pid, true)) := by
  intro l
  induction l with
  | nil => intro pid p _ hfh; simp [firstHit] at hfh
  | cons e rest ih =>
    intro pid p hnd hfh hp halive
    obtain ⟨k, q⟩ := e
    have hpid_ne : pid ≠ owner := firstHit_ne_owner owner pos _ pid hfh
    simp only [List.map_cons, List.nodup_cons] at hnd
    by_cases ho : k = owner
    · have hkp : k ≠ pid := by rw [ho]; exact fun hc => hpid_ne hc.symm
      have hfh' : firstHit owner pos rest = some pid := by
        simpa [firstHit, ho] using hfh
      have hp' : assocGet pid rest = some p := by
        simpa [assocGet, hkp] using hp
      have hr := ih pid p hnd.2 hfh' hp' halive
      simp only [collideScan, ho, if_true, hr]
      simp [applyHitTo_cons, Ne.symm hpid_ne]
    · by_cases hd : distance_sq pos q.position ≤ PLAYER_RADIUS ^ 2
      · have hk : k = pid := by
          simpa [firstHit, ho, hd] using hfh
        subst hk
        have hq : q = p := by
          simpa [assocGet] using hp
        subst hq
        have hs : trySend q = Except.ok () := by simp [trySend, halive]
        simp only [collideScan, ho, if_false, hd, if_true, hs]
        rw [applyHitTo_cons, if_pos rfl,
          applyHitTo_not_mem k rest hnd.1, ← hitPlayer_decomp]
      · have hfh' : firstHit owner pos rest = some pid := by
          simpa [firstHit, ho, hd] using hfh
        have hkp : k ≠ pid := by
          intro hc
          exact hnd.1 (hc ▸ firstHit_mem_keys owner pos rest pid hfh')
        have hp' : assocGet pid rest = some p := by
          simpa [assocGet, hkp] using hp
        have hr := ih pid p hnd.2 hfh' hp' halive
        simp only [collideScan, ho, if_false, hd, hr]
        rw [applyHitTo_cons, if_neg hkp]

theorem collideScan_alive (owner : String) (pos : Vec3)
    (l : List (String × PlayerState))
    (h : ∀ e ∈ l, (e : String × PlayerState).2.alive = true) :
    ∀ e ∈ (collideScan owner pos l).1, (e : String × PlayerState).2.alive = true := by
  induction l with
  | nil => simp [collideScan]
  | cons e rest ih =>
    obtain ⟨k, q⟩ := e
    have hq : q.alive = true := h (k, q) (by simp)
    have hrest : ∀ e ∈ rest, (e : String × PlayerState).2.alive = true :=
      fun e he => h e (by simp [he])
    by_cases ho : k = owner
    · simp only [collideScan, ho, if_true]
      intro e he
      rcases List.mem_cons.mp he with rfl | htail
      · exact hq
      · exact ih hrest e htail
    · by_cases hd : distance_sq pos q.position ≤ PLAYER_RADIUS ^ 2
      · simp only [collideScan, ho, if_false, hd, if_true]
        cases hs : trySend q with
        | ok u =>
          intro e he
          rcases List.mem_cons.mp he with rfl | htail
          · rw [← hitPlayer_decomp]
            simpa [hitPlayer_alive] using hq
          · exact hrest e htail
        | error err =>
          intro e he
          rcases List.mem_cons.mp he with rfl | htail
          · simpa [damagePlayer] using hq
          · exact hrest e htail
      · simp only [collideScan, ho, if_false, hd]
        intro e he
        rcases List.mem_cons.mp he with rfl | htail
        · exact hq
        · exact ih hrest e htail

theorem collideScan_no_abort (owner : String) (pos : Vec3)
    (l : List (String × PlayerState))
    (h : ∀ e ∈ l, (e : String × PlayerState).2.alive = true) :
    ∀ q : String, (collideScan owner pos l).2 ≠ some (q, false) := by
  induction l with
  | nil => simp [collideScan]
  | cons e rest ih =>
    obtain ⟨k, p⟩ := e
    have hp : p.alive = true := h (k, p) (by simp)
    have hrest : ∀ e ∈ rest, (e : String × PlayerState).2.alive = true :=
      fun e he => h e (by simp [he])
    by_cases ho : k = owner
    · simp only [collideScan, ho, if_true]
      exact ih hrest
    · by_cases hd : distance_sq pos p.position ≤ PLAYER_RADIUS ^ 2
      · have hs : trySend p = Except.ok () := by simp [trySend, hp]
        simp only [collideScan, ho, if_false, hd, if_true, hs]
        simp
      · simp only [collideScan, ho, if_false, hd]
        exact ih hrest

theorem collideScan_health_pos (owner : String) (pos : Vec3) :
    ∀ (l : List (String × PlayerState)) (q : String),
      (∀ e ∈ l, 0 < (e : String × PlayerState).2.health) →
      (collideScan owner pos l).2 = some (q, true) →
      ∀ e ∈ (collideScan owner pos l).1, 0 < (e : String × PlayerState).2.health := by
  intro l
  induction l with
  | nil => intro q _ hsc; simp [collideScan] at hsc
  | cons e rest ih =>
    intro hq0 h hsc
    obtain ⟨k, q⟩ := e
    have hq : 0 < q.health := h (k, q) (by simp)
    have hrest : ∀ e ∈ rest, 0 < (e : String × PlayerState).2.health :=
      fun e he => h e (by simp [he])
    by_cases ho : k = owner
    · simp only [collideScan, ho, if_true] at hsc ⊢
      intro e he
      rcases List.mem_cons.mp he with rfl | htail
      · exact hq
      · exact ih hq0 hrest hsc e htail
    · by_cases hd : distance_sq pos q.position ≤ PLAYER_RADIUS ^ 2
      · simp only [collideScan, ho, if_false, hd, if_true] at hsc ⊢
        cases hs : trySend q with
        | ok u =>
          simp only [hs]
          intro e he
          rcases List.mem_cons.mp he with rfl | htail
          · rw [← hitPlayer_decomp]
            exact hitPlayer_health_pos q
          · exact hrest e htail
        | error err =>
          rw [hs] at hsc
          simp at hsc
      · simp only [collideScan, ho, if_false, hd] at hsc ⊢
        intro e he
        rcases List.mem_cons.mp he with rfl | htail
        · exact hq
        · exact ih hq0 hrest hsc e htail

theorem removeKeys_not_mem {α : Type} (rem : List String) (d : List (String × α)) :
    ∀ e ∈ removeKeys rem d, ¬ e.1 ∈ rem := by
  intro e he
  have := List.mem_filter.mp he
  simpa using this.2

theorem tickResult_updateBullets (now dt : ℚ) (st : ServerState) :
    (tickResult (updateBullets now dt st)).1.players
        = loopPlayers (updateLoop now dt st.players st.bullets) ∧
    (tickResult (updateBullets now dt st)).2
        = loopOutputs (updateLoop now dt st.players st.bullets) := by
  unfold updateBullets tickResult loopPlayers loopOutputs
  cases updateLoop now dt st.players st.bullets with
  | ok r => simp
  | error a => simp

theorem updateBullets_single_hit (now dt : ℚ) (st : ServerState) (bid : String)
    (b : Bullet) (pid : String) (p : PlayerState)
    (hnd : (st.players.map Prod.fst).Nodup)
    (hb : st.bullets = [(bid, b)])
    (hexp : ¬ now - b.created_at > BULLET_LIFETIME)
    (hfh : firstHit b.owner_id (advanceBullet dt b).position st.players = some pid)
    (hp : assocGet pid st.players = some p)
    (halive : p.alive = true) :
    updateBullets now dt st
      = Except.ok ({ st with players := applyHitTo pid st.players, bullets := [] },
          [(pid, BULLET_DAMAGE)]) := by
  have hcs := collideScan_hit_of_alive b.owner_id (advanceBullet dt b).position
    st.players pid p hnd hfh hp halive
  simp only [updateBullets, hb, updateLoop, if_neg hexp, hcs]
  simp [removeKeys]

theorem updateLoop_all_expired (now dt : ℚ) :
    ∀ (bullets : List (String × Bullet)) (players : List (String × PlayerState)),
      (∀ e ∈ bullets, now - (e : String × Bullet).2.created_at > BULLET_LIFETIME) →
      updateLoop now dt players bullets
        = Except.ok ⟨bullets.map (fun e => (e.1, advanceBullet dt e.2)), players,
            bullets.map Prod.fst, []⟩ := by
  intro bullets
  induction bullets with
  | nil => intro players _; simp [updateLoop]
  | cons eb rest ih =>
    intro players h
    obtain ⟨k, bb⟩ := eb
    have hexp : now - bb.created_at > BULLET_LIFETIME := h (k, bb) (by simp)
    have hr := ih players (fun e he => h e (by simp [he]))
    simp [updateLoop, hexp, hr]

theorem updateLoop_expired_mem_removed (now dt : ℚ) :
    ∀ (bullets : List (String × Bullet)) (players : List (String × PlayerState))
      (bid : String) (b : Bullet) (r : LoopOut),
      (bid, b) ∈ bullets → now - b.created_at > BULLET_LIFETIME →
      updateLoop now dt players bullets = Except.ok r →
      bid ∈ r.removed := by
  intro bullets
  induction bullets with
  | nil => intro players bid b r hmem; simp at hmem
  | cons eb rest ih =>
    intro players bid b r hmem hexp hok
    obtain ⟨k, bb⟩ := eb
    rcases List.mem_cons.mp hmem with heq | htail
    · injection heq with hk hb
      subst hk
      subst hb
      simp only [updateLoop, if_pos hexp] at hok
      split at hok
      · rename_i r' hrec
        simp only [Except.ok.injEq] at hok
        rw [← hok]
        simp
      · simp at hok
    · simp only [updateLoop] at hok
      by_cases he : now - bb.created_at > BULLET_LIFETIME
      · rw [if_pos he] at hok
        split at hok
        · rename_i r' hrec
          simp only [Except.ok.injEq] at hok
          rw [← hok]
          simpa using Or.inr (ih players bid b r' htail hexp hrec)
        · simp at hok
      · rw [if_neg he] at hok
        split at hok
        · rename_i ps' hcs
          split at hok
          · rename_i r' hrec
            simp only [Except.ok.injEq] at hok
            rw [← hok]
            simpa using ih players bid b r' htail hexp hrec
          · simp at hok
        · rename_i ps' q hcs
          split at hok
          · rename_i r' hrec
            simp only [Except.ok.injEq] at hok
            rw [← hok]
            simpa using Or.inr (ih ps' bid b r' htail hexp hrec)
          · simp at hok
        · simp at hok

theorem updateLoop_ok_of_all_alive (now dt : ℚ) :
    ∀ (bullets : List (String × Bullet)) (players : List (String × PlayerState)),
      (∀ e ∈ players, (e : String × PlayerState).2.alive = true) →
      ∃ r : LoopOut, updateLoop now dt players bullets = Except.ok r := by
  intro bullets
  induction bullets with
  | nil => intro players _; exact ⟨⟨[], players, [], []⟩, rfl⟩
  | cons eb rest ih =>
    intro players halive
    obtain ⟨k, bb⟩ := eb
    by_cases he : now - bb.created_at > BULLET_LIFETIME
    · obtain ⟨r', hr'⟩ := ih players halive
      exact ⟨⟨(k, advanceBullet dt bb) :: r'.bullets, r'.players, k :: r'.removed,
        r'.outputs⟩, by simp [updateLoop, he, hr']⟩
    · rcases hcs : collideScan bb.owner_id (advanceBullet dt bb).position players
        with ⟨ps', oc⟩
      match oc with
      | none =>
        obtain ⟨r', hr'⟩ := ih players halive
        exact ⟨⟨(k, advanceBullet dt bb) :: r'.bullets, r'.players, r'.removed,
          r'.outputs⟩, by simp [updateLoop, he, hcs, hr']⟩
      | some (q, true) =>
        have halive' : ∀ e ∈ ps', (e : String × PlayerState).2.alive = true := by
          have := collideScan_alive bb.owner_id (advanceBullet dt bb).position
            players halive
          rw [hcs] at this
          exact this
        obtain ⟨r', hr'⟩ := ih ps' halive'
        exact ⟨⟨(k, advanceBullet dt bb) :: r'.bullets, r'.players, k :: r'.removed,
          (q, BULLET_DAMAGE) :: r'.outputs⟩, by simp [updateLoop, he, hcs, hr']⟩
      | some (q, false) =>
        have := collideScan_no_abort bb.owner_id (advanceBullet dt bb).position
          players halive q
        rw [hcs] at this
        simp at this

theorem updateLoop_health_pos (now dt : ℚ) :
    ∀ (bullets : List (String × Bullet)) (players : List (String × PlayerState))
      (r : LoopOut),
      (∀ e ∈ players, 0 < (e : String × PlayerState).2.health) →
      updateLoop now dt players bullets = Except.ok r →
      ∀ e ∈ r.players, 0 < (e : String × PlayerState).2.health := by
  intro bullets
  induction bullets with
  | nil =>
    intro players r h hok
    simp only [updateLoop, Except.ok.injEq] at hok
    rw [← hok]
    simpa using h
  | cons eb rest ih =>
    intro players r h hok
    obtain ⟨k, bb⟩ := eb
    simp only [updateLoop] at hok
    by_cases he : now - bb.created_at > BULLET_LIFETIME
    · rw [if_pos he] at hok
      split at hok
      · rename_i r' hrec
        simp only [Except.ok.injEq] at hok
        rw [← hok]
        simpa using ih players r' h hrec
      · simp at hok
    · rw [if_neg he] at hok
      split at hok
      · rename_i ps' hcs
        split at hok
        · rename_i r' hrec
          simp only [Except.ok.injEq] at hok
          rw [← hok]
          simpa using ih players r' h hrec
        · simp at hok
      · rename_i ps' q hcs
        have hpos' : ∀ e ∈ ps', 0 < (e : String × PlayerState).2.health := by
          have h2 := collideScan_health_pos bb.owner_id (advanceBullet dt bb).position
            players q h (by rw [hcs])
          rw [hcs] at h2
          exact h2
        split at hok
        · rename_i r' hrec
          simp only [Except.ok.injEq] at hok
          rw [← hok]
          simpa using ih ps' r' hpos' hrec
        · simp at hok
      · simp at hok

theorem updateLoop_owner_untouched (now dt : ℚ) (pid : String) :
    ∀ (bullets : List (String × Bullet)) (players : List (String × PlayerState)),
      (∀ e ∈ bullets, (e : String × Bullet).2.owner_id = pid) →
      assocGet pid (loopPlayers (updateLoop now dt players bullets))
          = assocGet pid players ∧
      ∀ o ∈ loopOutputs (updateLoop now dt players bullets), o.1 ≠ pid := by
  intro bullets
  induction bullets with
  | nil => intro players _; simp [updateLoop, loopPlayers, loopOutputs]
  | cons eb rest ih =>
    intro players h
    obtain ⟨k, bb⟩ := eb
    have hown : bb.owner_id = pid := h (k, bb) (by simp)
    have hrest : ∀ e ∈ rest, (e : String × Bullet).2.owner_id = pid :=
      fun e he => h e (by simp [he])
    simp only [updateLoop]
    by_cases he : now - bb.created_at > BULLET_LIFETIME
    · rw [if_pos he]
      have hih := ih players hrest
      cases hrec : updateLoop now dt players rest with
      | ok r' =>
        rw [hrec] at hih
        exact hih
      | error a =>
        rw [hrec] at hih
        exact hih
    · rw [if_neg he]
      rcases hcs : collideScan bb.owner_id (advanceBullet dt bb).position players
        with ⟨ps', oc⟩
      cases oc with
      | none =>
        simp only []
        have hih := ih players hrest
        cases hrec : updateLoop now dt players rest with
        | ok r' =>
          rw [hrec] at hih
          exact hih
        | error a =>
          rw [hrec] at hih
          exact hih
      | some qd =>
        obtain ⟨q, d⟩ := qd
        have hq_ne : q ≠ pid := by
          have hno := collideScan_snd_ne_owner bb.owner_id
            (advanceBullet dt bb).position players q d (by rw [hcs])
          rw [hown] at hno
          exact hno
        have hps' : assocGet pid ps' = assocGet pid players := by
          have hgo := assocGet_collideScan_owner bb.owner_id
            (advanceBullet dt bb).position players
          rw [hcs, hown] at hgo
          exact hgo
        cases d with
        | true =>
          simp only []
          have hih := ih ps' hrest
          cases hrec : updateLoop now dt ps' rest with
          | ok r' =>
            rw [hrec] at hih
            have h1 : assocGet pid r'.players = assocGet pid ps' := hih.1
            have h2 : ∀ o ∈ r'.outputs, o.1 ≠ pid := hih.2
            refine ⟨h1.trans hps', ?_⟩
            show ∀ o ∈ (q, BULLET_DAMAGE) :: r'.outputs, o.1 ≠ pid
            intro o ho
            rcases List.mem_cons.mp ho with rfl | htail
            · exact hq_ne
            · exact h2 o htail
          | error a =>
            rw [hrec] at hih
            have h1 : assocGet pid a.players = assocGet pid ps' := hih.1
            have h2 : ∀ o ∈ a.outputs, o.1 ≠ pid := hih.2
            refine ⟨h1.trans hps', ?_⟩
            show ∀ o ∈ (q, BULLET_DAMAGE) :: a.outputs, o.1 ≠ pid
            intro o ho
            rcases List.mem_cons.mp ho with rfl | htail
            · exact hq_ne
            · exact h2 o htail
        | false =>
          simp only []
          refine ⟨hps', ?_⟩
          intro o ho
          exact absurd ho (List.not_mem_nil o)

/-! ### Claim theorems -/

/-- C1 counterexample: a projectile whose post-advance position is
within the player radius of the non-owner session `t2` leaves `t2`'s
health untouched at 100 and sends `t2` no damage notification, because
the earlier session `t1` in registry order is also within radius and
takes the (single) hit — so the claim is false as universally stated. -/
theorem C1_counterexample :
    let b : Bullet := ⟨"bullet", "shooter", ⟨2/10, 0, 0⟩, ⟨-1, 0, 0⟩, 0⟩
    let st : ServerState := ⟨"S", 50000, 8,
      [("t1", ⟨"T1", ⟨0, 0, 0⟩, 0, 100, 0, true⟩),
       ("t2", ⟨"T2", ⟨1/10, 0, 0⟩, 0, 100, 0, true⟩),
       ("shooter", ⟨"Sh", ⟨50, 0, 0⟩, 0, 100, 0, true⟩)],
      [("bullet", b)]⟩
    distance_sq (advanceBullet (1/100) b).position (⟨1/10, 0, 0⟩ : Vec3)
        ≤ PLAYER_RADIUS ^ 2 ∧
    "t2" ≠ b.owner_id ∧
    (assocGet "t2" (tickResult (updateBullets 0 (1/100) st)).1.players).map
        PlayerState.health = some 100 ∧
    (tickResult (updateBullets 0 (1/100) st)).2 = [("t1", BULLET_DAMAGE)] := by
  norm_num +decide [tickResult, updateBullets, updateLoop, collideScan, trySend,
    advanceBullet, firstHit, distance_sq, PLAYER_RADIUS, BULLET_SPEED,
    BULLET_LIFETIME, BULLET_DAMAGE, damagePlayer, respawnIfDead, removeKeys,
    assocGet, respawnPos, RESPAWN_HEIGHT]

/-- C1 (amended): in a tick whose store holds exactly one projectile,
which has not outlived its lifetime and whose post-advance position is
within the player radius of some non-owner session of a registry with
unique ids, the first such session in registry order — if its writer is
live and its health exceeds the damage constant — loses exactly
`BULLET_DAMAGE` health, the tick completes with the projectile removed
from the store, exactly one damage notification of that amount is
delivered, to that session and to no other, and every other session is
untouched. -/
theorem C1_single_projectile_hit (now dt : ℚ) (st : ServerState) (bid : String)
    (b : Bullet) (pid : String) (p : PlayerState)
    (hnd : (st.players.map Prod.fst).Nodup)
    (hb : st.bullets = [(bid, b)])
    (hexp : ¬ now - b.created_at > BULLET_LIFETIME)
    (hfh : firstHit b.owner_id (advanceBullet dt b).position st.players = some pid)
    (hp : assocGet pid st.players = some p)
    (halive : p.alive = true)
    (hh : BULLET_DAMAGE < p.health) :
    updateBullets now dt st
      = Except.ok ({ st with players := applyHitTo pid st.players, bullets := [] },
          [(pid, BULLET_DAMAGE)]) ∧
    (assocGet pid (applyHitTo pid st.players)).map PlayerState.health
        = some (p.health - BULLET_DAMAGE) ∧
    ∀ q, q ≠ pid →
      assocGet q (applyHitTo pid st.players) = assocGet q st.players := by
  refine ⟨updateBullets_single_hit now dt st bid b pid p hnd hb hexp hfh hp halive,
    ?_, ?_⟩
  · rw [assocGet_applyHitTo_self, hp]
    have hn : ¬ p.health - BULLET_DAMAGE ≤ 0 := by omega
    simp [hitPlayer, hn]
  · intro q hq
    exact assocGet_applyHitTo_ne pid q st.players hq

/-- C1 witness: the spec's example scenario — capacity 4, "shooter" at
(5,0,0), "target" at (0,0,0), a projectile owned by "shooter" at
(0.2,0,0) with direction (-1,0,0), dt = 0.01 — completes the tick,
drops "target" from 100 to 75, removes the projectile and delivers
exactly one notification of 25 to "target". -/
theorem C1_single_projectile_hit_witness :
    let b : Bullet := ⟨"bullet", "shooter", ⟨2/10, 0, 0⟩, ⟨-1, 0, 0⟩, 0⟩
    let st : ServerState := ⟨"S", 50000, 4,
      [("target", ⟨"Target", ⟨0, 0, 0⟩, 0, 100, 0, true⟩),
       ("shooter", ⟨"Shooter", ⟨5, 0, 0⟩, 0, 100, 0, true⟩)],
      [("bullet", b)]⟩
    updateBullets 0 (1/100) st
      = Except.ok ({ st with players := applyHitTo "target" st.players, bullets := [] },
          [("target", BULLET_DAMAGE)]) ∧
    (assocGet "target" (applyHitTo "target" st.players)).map PlayerState.health
        = some 75 := by
  intro b st
  have h := C1_single_projectile_hit 0 (1/100) st "bullet" b "target"
    (⟨"Target", ⟨0, 0, 0⟩, 0, 100, 0, true⟩ : PlayerState)
    (by decide) rfl (by norm_num [BULLET_LIFETIME])
    (by norm_num +decide [firstHit, advanceBullet, distance_sq, PLAYER_RADIUS,
      BULLET_SPEED, st, b])
    (by decide) (by decide) (by decide)
  refine ⟨h.1, ?_⟩
  rw [h.2.1]
  decide

/-- C2: a projectile never damages its own owner, on every program
path: `firstHit` never selects the owner of the projectile, and in any
tick in which every stored projectile is owned by session `pid` —
whether the tick completes or aborts on a failed damage send — session
`pid`'s registry entry is unchanged and `pid` receives no damage
notification, however close the projectiles are. -/
theorem C2_no_owner_damage :
    (∀ (owner : String) (pos : Vec3) (l : List (String × PlayerState)) (q : String),
      firstHit owner pos l = some q → q ≠ owner) ∧
    (∀ (now dt : ℚ) (st : ServerState) (pid : String),
      (∀ e ∈ st.bullets, (e : String × Bullet).2.owner_id = pid) →
      assocGet pid (tickResult (updateBullets now dt st)).1.players
          = assocGet pid st.players ∧
      ∀ o ∈ (tickResult (updateBullets now dt st)).2, o.1 ≠ pid) := by
  refine ⟨firstHit_ne_owner, ?_⟩
  intro now dt st pid h
  have hbr := tickResult_updateBullets now dt st
  have hloop := updateLoop_owner_untouched now dt pid st.bullets st.players h
  rw [hbr.1, hbr.2]
  exact hloop

/-- C2 witness: a projectile resting exactly on its owner's position
does not change the owner's session or notify the owner. -/
theorem C2_no_owner_damage_witness :
    let st : ServerState := ⟨"S", 50000, 8,
      [("shooter", ⟨"Sh", ⟨0, 0, 0⟩, 0, 100, 0, true⟩)],
      [("bullet", ⟨"bullet", "shooter", ⟨0, 0, 0⟩, ⟨0, 0, 0⟩, 0⟩)]⟩
    assocGet "shooter" (tickResult (updateBullets 0 (1/100) st)).1.players
        = assocGet "shooter" st.players ∧
    ∀ o ∈ (tickResult (updateBullets 0 (1/100) st)).2, o.1 ≠ "shooter" := by
  intro st
  exact C2_no_owner_damage.2 0 (1/100) st "shooter" (by decide)

/-- C3 counterexample: a projectile hit decrements a dead-writer
session from 20 to −5 (damage brings health ≤ 0), but the damage send
at line 157 raises before the reset at lines 158-160 ever runs: after
the aborted tick the session's health is −5, its position is unchanged
(not the respawn point), and no snapshot is built that tick — the
claimed same-tick reset does not happen. -/
theorem C3_counterexample :
    let b : Bullet := ⟨"bullet", "shooter", ⟨2/10, 0, 0⟩, ⟨-1, 0, 0⟩, 0⟩
    let st : ServerState := ⟨"S", 50000, 8,
      [("target", ⟨"Target", ⟨0, 0, 0⟩, 0, 20, 0, false⟩),
       ("shooter", ⟨"Sh", ⟨50, 0, 0⟩, 0, 100, 0, true⟩)],
      [("bullet", b)]⟩
    (20 : Int) - BULLET_DAMAGE ≤ 0 ∧
    (assocGet "target" (tickResult (updateBullets 0 (1/100) st)).1.players).map
        PlayerState.health = some (-5) ∧
    (assocGet "target" (tickResult (updateBullets 0 (1/100) st)).1.players).map
        PlayerState.position = some ⟨0, 0, 0⟩ ∧
    (⟨0, 0, 0⟩ : Vec3) ≠ respawnPos ∧
    (worldTick 0 (1/100) st).isOk = false := by
  norm_num +decide [tickResult, worldTick, Except.isOk, updateBullets, updateLoop,
    collideScan, trySend, advanceBullet, firstHit, distance_sq, PLAYER_RADIUS,
    BULLET_SPEED, BULLET_LIFETIME, BULLET_DAMAGE, damagePlayer, respawnIfDead,
    removeKeys, assocGet, respawnPos, RESPAWN_HEIGHT]

/-- C3 (amended): the hit path resets a session driven to health `≤ 0`
to exactly 100 at the respawn point, provided the damage send succeeds
(live writer): in a single-projectile tick on a unique-id registry with
a live-writer target this reset is visible in the post-tick registry
before the snapshot; and whenever all sessions have positive health
before a tick that completes, the snapshot built at the end of that
same tick again shows only positive health.  If the send raises, the
decrement persists with no reset and no snapshot is built that tick. -/
theorem C3_respawn_reset :
    (∀ p : PlayerState, p.health - BULLET_DAMAGE ≤ 0 →
      hitPlayer p = { p with position := respawnPos, health := 100 }) ∧
    (∀ (now dt : ℚ) (st : ServerState) (bid : String) (b : Bullet)
        (pid : String) (p : PlayerState),
      (st.players.map Prod.fst).Nodup →
      st.bullets = [(bid, b)] →
      ¬ now - b.created_at > BULLET_LIFETIME →
      firstHit b.owner_id (advanceBullet dt b).position st.players = some pid →
      assocGet pid st.players = some p →
      p.alive = true →
      p.health - BULLET_DAMAGE ≤ 0 →
      updateBullets now dt st
        = Except.ok ({ st with players := applyHitTo pid st.players, bullets := [] },
            [(pid, BULLET_DAMAGE)]) ∧
      assocGet pid (applyHitTo pid st.players)
        = some { p with position := respawnPos, health := 100 }) ∧
    (∀ (now dt : ℚ) (st : ServerState) (t : TickOut),
      (∀ e ∈ st.players, 0 < (e : String × PlayerState).2.health) →
      worldTick now dt st = Except.ok t →
      ∀ v ∈ t.snapshot.players, 0 < v.health) := by
  have hreset : ∀ p : PlayerState, p.health - BULLET_DAMAGE ≤ 0 →
      hitPlayer p = { p with position := respawnPos, health := 100 } := by
    intro p h
    simp [hitPlayer, h]
  refine ⟨hreset, ?_, ?_⟩
  · intro now dt st bid b pid p hnd hb hexp hfh hp halive hh
    refine ⟨updateBullets_single_hit now dt st bid b pid p hnd hb hexp hfh hp halive,
      ?_⟩
    rw [assocGet_applyHitTo_self, hp]
    simp [hreset p hh]
  · intro now dt st t h hok
    unfold worldTick at hok
    split at hok
    · rename_i st' outs heq
      simp only [Except.ok.injEq] at hok
      unfold updateBullets at heq
      split at heq
      · rename_i r hrec
        simp only [Except.ok.injEq, Prod.mk.injEq] at heq
        have hpos := updateLoop_health_pos now dt st.bullets st.players r h hrec
        intro v hv
        rw [← hok] at hv
        simp only [buildSnapshot] at hv
        rcases List.mem_map.mp hv with ⟨e, he, rfl⟩
        have hse : st'.players = r.players := by rw [← heq.1]
        rw [hse] at he
        exact hpos e he
      · simp at heq
    · simp at hok

/-- C3 witness: a live-writer target on 20 health hit by a projectile
is back at exactly 100 health at the respawn point in the post-tick
registry, and the tick completes. -/
theorem C3_respawn_reset_witness :
    let b : Bullet := ⟨"bullet", "shooter", ⟨2/10, 0, 0⟩, ⟨-1, 0, 0⟩, 0⟩
    let st : ServerState := ⟨"S", 50000, 4,
      [("target", ⟨"Target", ⟨0, 0, 0⟩, 0, 20, 0, true⟩),
       ("shooter", ⟨"Shooter", ⟨5, 0, 0⟩, 0, 100, 0, true⟩)],
      [("bullet", b)]⟩
    assocGet "target" (applyHitTo "target" st.players)
        = some ⟨"Target", respawnPos, 0, 100, 0, true⟩ ∧
    updateBullets 0 (1/100) st
      = Except.ok ({ st with players := applyHitTo "target" st.players, bullets := [] },
          [("target", BULLET_DAMAGE)]) := by
  intro b st
  have h := C3_respawn_reset.2.1 0 (1/100) st "bullet" b "target"
    (⟨"Target", ⟨0, 0, 0⟩, 0, 20, 0, true⟩ : PlayerState)
    (by decide) rfl (by norm_num [BULLET_LIFETIME])
    (by norm_num +decide [firstHit, advanceBullet, distance_sq, PLAYER_RADIUS,
      BULLET_SPEED, st, b])
    (by decide) (by decide) (by decide)
  exact ⟨h.2, h.1⟩

/-- C6 counterexample: the non-expired projectile "kill" hits the
dead-writer session "victim" and the damage send raises, aborting the
loop before the pops at lines 163-164 — so the expired projectile
"old" (age 10 > 3), whose excess is detectable this tick, is still in
the store after the tick: removal-in-the-same-tick is false as
universally stated. -/
theorem C6_counterexample :
    let kill : Bullet := ⟨"kill", "shooter", ⟨0, 0, 0⟩, ⟨0, 0, 0⟩, 9⟩
    let old : Bullet := ⟨"old", "shooter", ⟨90, 0, 0⟩, ⟨0, 0, 0⟩, 0⟩
    let st : ServerState := ⟨"S", 50000, 8,
      [("victim", ⟨"V", ⟨0, 0, 0⟩, 0, 100, 0, false⟩),
       ("shooter", ⟨"Sh", ⟨50, 0, 0⟩, 0, 100, 0, true⟩)],
      [("kill", kill), ("old", old)]⟩
    (10 : ℚ) - old.created_at > BULLET_LIFETIME ∧
    ("old", old) ∈ st.bullets ∧
    "old" ∈ ((tickResult (updateBullets 10 (1/100) st)).1.bullets).map Prod.fst ∧
    (updateBullets 10 (1/100) st).isOk = false := by
  norm_num +decide [tickResult, Except.isOk, updateBullets, updateLoop,
    collideScan, trySend, advanceBullet, firstHit, distance_sq, PLAYER_RADIUS,
    BULLET_SPEED, BULLET_LIFETIME, BULLET_DAMAGE, damagePlayer, respawnIfDead,
    removeKeys, assocGet, respawnPos, RESPAWN_HEIGHT]

/-- C6 (amended): in a tick in which every connected session's writer
is live — so no damage send can raise and the tick completes — every
projectile whose age strictly exceeds `BULLET_LIFETIME` is absent from
the store after that same tick, whether or not it collided with
anything. -/
theorem C6_expired_removed (now dt : ℚ) (st : ServerState) (bid : String)
    (b : Bullet)
    (halive : ∀ e ∈ st.players, (e : String × PlayerState).2.alive = true)
    (hmem : (bid, b) ∈ st.bullets)
    (hexp : now - b.created_at > BULLET_LIFETIME) :
    ∃ s outs, updateBullets now dt st = Except.ok (s, outs) ∧
      ¬ bid ∈ s.bullets.map Prod.fst := by
  obtain ⟨r, hr⟩ := updateLoop_ok_of_all_alive now dt st.bullets st.players halive
  refine ⟨{ st with players := r.players, bullets := removeKeys r.removed r.bullets },
    r.outputs, ?_, ?_⟩
  · unfold updateBullets
    rw [hr]
  · intro hin
    rcases List.mem_map.mp hin with ⟨e, he, hfst⟩
    have hrem : bid ∈ r.removed :=
      updateLoop_expired_mem_removed now dt st.bullets st.players bid b r hmem hexp hr
    have hnot := removeKeys_not_mem r.removed r.bullets e he
    rw [hfst] at hnot
    exact hnot hrem

/-- C6 witness: on a registry whose only session has a live writer, a
projectile created at time 0 is gone from the store after a completed
tick at time 10 even though it hit nothing. -/
theorem C6_expired_removed_witness :
    ∃ s outs,
      updateBullets 10 (1/100)
          (⟨"S", 50000, 8, [("p1", ⟨"P", ⟨0, 0, 0⟩, 0, 100, 0, true⟩)],
            [("bullet", ⟨"bullet", "shooter", ⟨0, 0, 0⟩, ⟨1, 0, 0⟩, 0⟩)]⟩ :
            ServerState)
        = Except.ok (s, outs) ∧
      ¬ "bullet" ∈ s.bullets.map Prod.fst :=
  C6_expired_removed 10 (1/100) _ "bullet"
    ⟨"bullet", "shooter", ⟨0, 0, 0⟩, ⟨1, 0, 0⟩, 0⟩
    (by decide) (by decide) (by norm_num [BULLET_LIFETIME])

/-- C7 counterexample: a projectile that has both exceeded its lifetime
and overlaps the non-owner session `t1` after advancing is removed in a
completed tick without damaging `t1` and without any notification: the
expiry check (line 148) runs before hit-testing and `continue`s past
it, so the claimed "damage before removal" behaviour does not happen. -/
theorem C7_counterexample :
    let b : Bullet := ⟨"bullet", "shooter", ⟨2/10, 0, 0⟩, ⟨-1, 0, 0⟩, 0⟩
    let st : ServerState := ⟨"S", 50000, 8,
      [("t1", ⟨"T1", ⟨0, 0, 0⟩, 0, 100, 0, true⟩),
       ("shooter", ⟨"Sh", ⟨50, 0, 0⟩, 0, 100, 0, true⟩)],
      [("bullet", b)]⟩
    distance_sq (advanceBullet (1/100) b).position (⟨0, 0, 0⟩ : Vec3)
        ≤ PLAYER_RADIUS ^ 2 ∧
    (10 : ℚ) - b.created_at > BULLET_LIFETIME ∧
    updateBullets 10 (1/100) st = Except.ok ({ st with bullets := [] }, []) := by
  norm_num +decide [updateBullets, updateLoop, collideScan, trySend,
    advanceBullet, firstHit, distance_sq, PLAYER_RADIUS, BULLET_SPEED,
    BULLET_LIFETIME, BULLET_DAMAGE, damagePlayer, respawnIfDead, removeKeys,
    assocGet, respawnPos, RESPAWN_HEIGHT]

/-- C7 (amended): within one tick each projectile is advanced and then
checked for lifetime expiry BEFORE any hit-testing: in a tick where
every stored projectile has exceeded its lifetime, the tick completes
(no send is ever attempted), all projectiles are removed, no session's
state changes and no damage notification is sent, even if a projectile
overlaps a non-owner session. -/
theorem C7_expiry_before_hit_test (now dt : ℚ) (st : ServerState)
    (h : ∀ e ∈ st.bullets, now - (e : String × Bullet).2.created_at > BULLET_LIFETIME) :
    updateBullets now dt st = Except.ok ({ st with bullets := [] }, []) := by
  have hloop := updateLoop_all_expired now dt st.bullets st.players h
  unfold updateBullets
  rw [hloop]
  simp only []
  have hrk : removeKeys (st.bullets.map Prod.fst)
      (st.bullets.map (fun e => (e.1, advanceBullet dt e.2))) = [] := by
    simp only [removeKeys]
    rw [List.filter_eq_nil_iff]
    intro a ha
    rcases List.mem_map.mp ha with ⟨e, he, rfl⟩
    simp [List.mem_map]
    exact ⟨e.2, he⟩
  rw [hrk]

/-- C7 witness: the expired, overlapping projectile of a one-projectile
store is removed in a completed tick with no damage and no
notification. -/
theorem C7_expiry_before_hit_test_witness :
    let st : ServerState := ⟨"S", 50000, 8,
      [("t1", ⟨"T1", ⟨0, 0, 0⟩, 0, 100, 0, true⟩),
       ("shooter", ⟨"Sh", ⟨50, 0, 0⟩, 0, 100, 0, true⟩)],
      [("b1", ⟨"b1", "shooter", ⟨2/10, 0, 0⟩, ⟨-1, 0, 0⟩, 0⟩)]⟩
    updateBullets 10 (1/100) st = Except.ok ({ st with bullets := [] }, []) := by
  intro st
  exact C7_expiry_before_hit_test 10 (1/100) st
    (by norm_num +decide [st, BULLET_LIFETIME])

/-- The broadcast fold appends exactly the ids of sessions with live
writers, in registry order, whatever the accumulator. -/
theorem broadcast_foldl (l : List (String × PlayerState)) :
    ∀ acc : List String,
      l.foldl
        (fun acc e =>
          match trySend e.2 with
          | Except.ok _ => acc ++ [e.1]
          | Except.error SendError.connectionReset => acc)
        acc
      = acc ++ (l.filter (fun e => e.2.alive)).map Prod.fst := by
  induction l with
  | nil => intro acc; simp
  | cons e rest ih =>
    intro acc
    cases ha : e.2.alive with
    | true =>
      have hs : trySend e.2 = Except.ok () := by simp [trySend, ha]
      simp only [List.foldl_cons, hs]
      rw [ih (acc ++ [e.1])]
      simp [List.filter_cons, ha]
    | false =>
      have hs : trySend e.2 = Except.error SendError.connectionReset := by
        simp [trySend, ha]
      simp only [List.foldl_cons, hs]
      rw [ih acc]
      simp [List.filter_cons, ha]

/-- C8: broadcasting a snapshot is a total function of the state — a
connection-reset failure on any recipient is caught inside the loop —
and the snapshot is delivered to exactly the sessions whose writers are
alive, in registry order: one severed connection never prevents
delivery to the remaining recipients. -/
theorem C8_broadcast_partial_failure (st : ServerState) :
    broadcastRecipients st = (st.players.filter (fun e => e.2.alive)).map Prod.fst := by
  unfold broadcastRecipients
  rw [broadcast_foldl st.players []]
  simp

/-- C9 counterexample: the datagrams `" DISCOVER"` (space-padded) and
`"\x0bDISCOVER"` (vertical-tab-padded) are not the exact literal probe
line `DISCOVER`, yet the discovery loop replies to both (the code
strips ASCII whitespace before comparing), so the claimed "if and only
if the datagram is the exact literal" is false. -/
theorem C9_counterexample :
    let st : ServerState := ⟨"Test", 50000, 4,
      [("a", ⟨"A", ⟨0, 0, 0⟩, 0, 100, 0, true⟩),
       ("b", ⟨"B", ⟨1, 0, 0⟩, 0, 100, 0, true⟩)], []⟩
    " DISCOVER" ≠ "DISCOVER" ∧
    handleDatagram st " DISCOVER" = some "SERVER Test 50000 2 4\n" ∧
    "\x0bDISCOVER" ≠ "DISCOVER" ∧
    handleDatagram st "\x0bDISCOVER" = some "SERVER Test 50000 2 4\n" := by
  refine ⟨by decide, ?_, by decide, ?_⟩ <;>
    · unfold handleDatagram
      rw [if_pos (by decide)]
      decide

/-- C9 (amended): the discovery service sends exactly one reply — the
line `SERVER <name> <port> <player_count> <max_players>` carrying the
current session count and configured capacity — if and only if the
received datagram equals `DISCOVER` after stripping leading and
trailing ASCII whitespace; every other datagram produces no reply. -/
theorem C9_discovery_reply (st : ServerState) (data : String) :
    ((handleDatagram st data).isSome ↔ pyStrip data = "DISCOVER") ∧
    (pyStrip data = "DISCOVER" →
      handleDatagram st data
        = some ("SERVER " ++ st.name ++ " " ++ toString st.port ++ " "
            ++ toString st.players.length ++ " " ++ toString st.max_players ++ "\n")) := by
  unfold handleDatagram
  by_cases h : pyStrip data = "DISCOVER"
  · rw [if_pos h]
    exact ⟨by simp [h], fun _ => rfl⟩
  · rw [if_neg h]
    exact ⟨by simp [h], fun hc => absurd hc h⟩

/-- C9 witness: the literal probe (with its newline) gets exactly the
advertised reply with the live session count and capacity. -/
theorem C9_discovery_reply_witness :
    handleDatagram
      (⟨"Test", 50000, 4,
        [("a", ⟨"A", ⟨0, 0, 0⟩, 0, 100, 0, true⟩),
         ("b", ⟨"B", ⟨1, 0, 0⟩, 0, 100, 0, true⟩)], []⟩ : ServerState)
      "DISCOVER\n" = some "SERVER Test 50000 2 4\n" := by
  have h := (C9_discovery_reply
    (⟨"Test", 50000, 4,
      [("a", ⟨"A", ⟨0, 0, 0⟩, 0, 100, 0, true⟩),
       ("b", ⟨"B", ⟨1, 0, 0⟩, 0, 100, 0, true⟩)], []⟩ : ServerState)
    "DISCOVER\n").2 (by decide)
  rw [h]
  decide

/-- C4 counterexample: a client `state` message reporting health −5 on
a joined session leaves that session's health at −5 — outside [0,100],
with no reset to 100 and no respawn — after the operation completes. -/
theorem C4_counterexample :
    let st : ServerState := ⟨"S", 50000, 8,
      [("p1", ⟨"P", ⟨1, 1, 1⟩, 0, 100, 0, true⟩)], []⟩
    (assocGet "p1" (handleMsg 1 "f"
        (ClientMsg.state none none (some (-5))) st (some "p1")).server.players).map
      PlayerState.health = some (-5) ∧
    ¬ (0 : Int) ≤ -5 ∧
    (assocGet "p1" (handleMsg 1 "f"
        (ClientMsg.state none none (some (-5))) st (some "p1")).server.players).map
      PlayerState.position = some ⟨1, 1, 1⟩ := by
  refine ⟨?_, by decide, ?_⟩ <;>
    simp [handleMsg, assocGet, dictInsert]

/-- C4 (amended): a client `state` message carrying a health value sets
the session's health to exactly that value, with no clamping and no
reset — so health can remain outside [0, 100] after the operation; only
the tick's damage path (`hitPlayer`) resets non-positive health to 100
at the respawn point. -/
theorem C4_state_message_no_clamp (now : ℚ) (fresh : String) (pos : Option Vec3)
    (rot : Option ℚ) (hv : Int) (st : ServerState) (i : String) (p : PlayerState)
    (hp : assocGet i st.players = some p) :
    (assocGet i (handleMsg now fresh (ClientMsg.state pos rot (some hv)) st
        (some i)).server.players).map PlayerState.health = some hv ∧
    (∀ q : PlayerState, q.health - BULLET_DAMAGE ≤ 0 →
      (hitPlayer q).health = 100 ∧ (hitPlayer q).position = respawnPos) := by
  constructor
  · simp only [handleMsg, hp]
    rw [assocGet_dictInsert_self]
    simp
  · intro q hq
    simp [hitPlayer, hq]

/-- C4 witness: a reported health of −5 is stored verbatim. -/
theorem C4_state_message_no_clamp_witness :
    (assocGet "p1" (handleMsg 1 "f" (ClientMsg.state none none (some (-5)))
        (⟨"S", 50000, 8, [("p1", ⟨"P", ⟨1, 1, 1⟩, 0, 100, 0, true⟩)], []⟩ : ServerState)
        (some "p1")).server.players).map PlayerState.health = some (-5) :=
  (C4_state_message_no_clamp 1 "f" none none (-5) _ "p1"
    (⟨"P", ⟨1, 1, 1⟩, 0, 100, 0, true⟩ : PlayerState) (by decide)).1
